import Mathlib

/-!
# Verification of the `swim` scraper's parsing core

A shallow embedding of `src/fetch/__init__.py`.  The markup/HTTP layer
(BeautifulSoup, requests) is external per the spec; cell texts and table
structure are taken as already-extracted values.  Python `str` is modelled
as `String` (both are sequences of code points); Python `float` arithmetic
is modelled by `PyFloat`: an exact rational for a finite value, plus the
infinities and NaN that `float(s)` can also produce (binary rounding of
IEEE doubles, and NaN's irreflexive `==`, are out of scope of the claims,
which speak of decimal values and of raise-versus-return behaviour).
Strings are taken over the ASCII repertoire: CPython's added acceptance of
non-ASCII Unicode decimal digits in numeric literals is not modelled, and
the one theorem quantifying over parse failures restricts itself to ASCII
inputs.  A Python exception is an `Except PyErr` error value: `except`
clauses in the source become matches on the error constructor.
-/

/-- The Python exception classes that the scraper's code paths can raise. -/
inductive PyErr where
  | typeError
  | valueError
  | indexError
  | keyError
deriving Repr, DecidableEq

instance {ε α : Type} [DecidableEq ε] [DecidableEq α] : DecidableEq (Except ε α) := fun a b =>
  match a, b with
  | .ok x, .ok y =>
    if h : x = y then .isTrue (by rw [h]) else .isFalse (fun hc => by cases hc; exact h rfl)
  | .error x, .error y =>
    if h : x = y then .isTrue (by rw [h]) else .isFalse (fun hc => by cases hc; exact h rfl)
  | .ok _, .error _ => .isFalse (fun hc => by cases hc)
  | .error _, .ok _ => .isFalse (fun hc => by cases hc)

/-! ## String primitives (Python `in`, `str.lower`, slicing) -/

/-- `containsL pat hay`: does `pat` occur as a contiguous sublist of `hay`?
Models Python's `pat in hay` on strings (at the code-point level). -/
def containsL (pat : List Char) : List Char → Bool
  | [] => pat.isEmpty
  | c :: t => pat.isPrefixOf (c :: t) || containsL pat t

/-- Python `pat in hay` for strings. -/
def strContains (hay pat : String) : Bool := containsL pat.data hay.data

/-- Python `str.lower()`.  The scraped cell texts are ASCII, so the
ASCII-only `Char.toLower` is an exact model here. -/
def pyLower (s : String) : String := ⟨s.data.map Char.toLower⟩

/-- Python slice `s[:n]` (code-point counted, never out of range). -/
def pyTake (s : String) (n : Nat) : String := ⟨s.data.take n⟩

/-- Python slice `s[n:]` (code-point counted, never out of range). -/
def pyDrop (s : String) (n : Nat) : String := ⟨s.data.drop n⟩

/-- Python `s.split(sep)` for a single-character separator: splits on every
occurrence, keeping empty segments. -/
def pySplit (sep : Char) (s : String) : List String :=
  (s.data.splitOn sep).map List.asString

/-! ## Python numeric-literal parsing

`float(s)` and `int(s)` accept optional surrounding whitespace, an
optional sign, and a literal: for `int` a run of decimal digits with
optional single underscores between digits; for `float` also a decimal
point, an exponent, and the special literals `inf`, `infinity` and `nan`
(case-insensitive).  The model covers all of these over ASCII; CPython's
further acceptance of non-ASCII Unicode decimal digits is not modelled. -/

/-- Characters Python's numeric constructors strip around a literal. -/
def isPyWs (c : Char) : Bool :=
  c == ' ' || c == '\t' || c == '\n' || c == '\r' || c == '\x0b' || c == '\x0c'

/-- Strip leading and trailing whitespace from a code-point list. -/
def stripWs (l : List Char) : List Char :=
  ((l.dropWhile isPyWs).reverse.dropWhile isPyWs).reverse

/-- Read an optional leading sign; `true` means negative. -/
def parseSign : List Char → Bool × List Char
  | '+' :: rest => (false, rest)
  | '-' :: rest => (true, rest)
  | l => (false, l)

/-- After at least one digit, consume `(digit | '_' digit)*`: further
digits, possibly with single underscores strictly between digits.  An
underscore not followed by a digit stops the run before the underscore
(where it then fails the literal, as in `int("1_")`). -/
def takeGroupedTail : List Char → List Char × List Char
  | [] => ([], [])
  | c :: rest =>
    if c.isDigit then
      match takeGroupedTail rest with
      | (ds, r) => (c :: ds, r)
    else if c = '_' then
      match rest with
      | d :: rest' =>
        if d.isDigit then
          match takeGroupedTail rest' with
          | (ds, r) => (d :: ds, r)
        else ([], c :: rest)
      | [] => ([], [c])
    else ([], c :: rest)

/-- Split a leading run of decimal digits off a code-point list, allowing
single underscores strictly between digits (CPython's PEP 515 grouping,
accepted by `int()` and `float()`); the digits come back with the
underscores removed. -/
def takeGroupedDigits : List Char → List Char × List Char
  | [] => ([], [])
  | c :: rest =>
    if c.isDigit then
      match takeGroupedTail rest with
      | (ds, r) => (c :: ds, r)
    else ([], c :: rest)

/-- The value of a digit string, most significant first. -/
def digitsVal (ds : List Char) : Nat :=
  ds.foldl (fun a c => a * 10 + (c.toNat - '0'.toNat)) 0

/-- Parse the optional exponent part of a float literal and apply it to a
numerator/denominator pair. -/
def pyExpPart (n : ℤ) (d : ℕ) : List Char → Option (ℤ × ℕ)
  | [] => some (n, d)
  | c :: rest =>
    if c == 'e' || c == 'E' then
      let (eneg, r1) := parseSign rest
      let (ds, r2) := takeGroupedDigits r1
      if ds.isEmpty || !r2.isEmpty then none
      else some (if eneg then (n, d * 10 ^ digitsVal ds) else (n * 10 ^ digitsVal ds, d))
    else none

/-- Parse a signed decimal float literal (whitespace already stripped) into
an exact (numerator, denominator) pair; the denominator is a power of 10.
The literal needs at least one digit in its mantissa; an optional exponent
follows, and nothing else may remain. -/
def pyFloatCore (l : List Char) : Option (ℤ × ℕ) :=
  match parseSign l with
  | (neg, l1) =>
    match takeGroupedDigits l1 with
    | (ip, '.' :: l3) =>
      match takeGroupedDigits l3 with
      | (fp, l4) =>
        if ip.length + fp.length == 0 then none
        else
          (pyExpPart (digitsVal ip * 10 ^ fp.length + digitsVal fp) (10 ^ fp.length) l4).map
            (fun p => (if neg then -p.1 else p.1, p.2))
    | (ip, l2) =>
      if ip.length == 0 then none
      else (pyExpPart (digitsVal ip) 1 l2).map (fun p => (if neg then -p.1 else p.1, p.2))

/-- A Python `float` value as `float(s)` can produce it: an exact rational
for a finite literal, a signed infinity, or NaN.  (NaN here is an ordinary
value with decidable equality; Python's `nan != nan` comparison semantics
is outside every claim.) -/
inductive PyFloat where
  | finite (q : ℚ)
  | inf (neg : Bool)
  | nan
deriving Repr, DecidableEq

/-- The special float literals: after the optional sign, case-insensitive
`inf`, `infinity` or `nan` with nothing else remaining. -/
def pyFloatSpecial (l : List Char) : Option PyFloat :=
  match parseSign l with
  | (neg, rest) =>
    let low := (rest.map Char.toLower).asString
    if low = "inf" || low = "infinity" then some (.inf neg)
    else if low = "nan" then some .nan
    else none

/-- The value of Python `float(s)`; `none` models a `ValueError`.  The
special literals and the decimal literals have disjoint grammars, so
trying the special ones first is an equivalent reading of `float`.  The
denominator produced by `pyFloatCore` is a power of 10, so `mkRat` is the
exact quotient. -/
def pyFloat (s : String) : Option PyFloat :=
  match pyFloatSpecial (stripWs s.data) with
  | some v => some v
  | none => (pyFloatCore (stripWs s.data)).map (fun p => .finite (mkRat p.1 p.2))

/-- Python `int(s)` (base 10); `none` models a `ValueError`. -/
def pyInt (s : String) : Option ℤ :=
  let l := stripWs s.data
  let (neg, l1) := parseSign l
  let (ds, l2) := takeGroupedDigits l1
  if ds.isEmpty || !l2.isEmpty then none
  else some (if neg then -(digitsVal ds : ℤ) else (digitsVal ds : ℤ))

/-! ## `time_to_float` -/

/-- `minutes * 60 + seconds` in Python float arithmetic: exact over the
rationals for a finite seconds value (assembled over the value's
denominator, which a `Rat` keeps positive), while adding a finite number
to an infinity or to NaN leaves it unchanged. -/
def pyAddMinutes (m : ℤ) : PyFloat → PyFloat
  | .finite q => .finite (mkRat (m * 60 * q.den + q.num) q.den)
  | .inf b => .inf b
  | .nan => .nan

/-- Embeds `time_to_float` (src/fetch/__init__.py:87-104).  The argument is
`Option String`: `none` is Python `None`.  `float(None)` raises `TypeError`,
which the `except ValueError` clause does not catch, so the `None` branch
errors before the handler's `time is None` test can run.  Inside the
handler, `int(time.split(":")[0])` is evaluated first (a `ValueError` there
propagates), then `time.split(":")[1]` (an `IndexError` when the string has
no colon), then `float` on that segment. -/
def time_to_float (time : Option String) : Except PyErr (Option PyFloat) :=
  match time with
  | none => .error .typeError
  | some t =>
    match pyFloat t with
    | some v => .ok (some v)
    | none =>
      if strContains (pyLower t) "dq" then .ok none
      else
        let parts := pySplit ':' t
        match pyInt (parts.headD "") with
        | none => .error .valueError
        | some m =>
          match parts.get? 1 with
          | none => .error .indexError
          | some s1 =>
            match pyFloat s1 with
            | none => .error .valueError
            | some sec => .ok (some (pyAddMinutes m sec))

/-! ## The meet-table row-stream parser (`fetch_meet_results`)

The HTTP fetch and the extraction of cell texts from the `<table>` markup
(src/fetch/__init__.py:22-31) belong to the external collaborators; the
parsing core (lines 33-84) consumes `results : List (List String)`, the
rows of cell texts, and is embedded here.  A Python `events` entry
`[name, home, away]` with time triples becomes the `EventResult` record;
the source appends the home triple as `[row[1], row[0], flag]` (name
first, cell 0 the time) and the away triple as `[row[7], row[6], flag]`
(cell 7 the time, cell 6 the name), so a triple is recorded here by which
cell feeds which field. -/

/-- One appended time triple: the time text, the swimmer name and the
exhibition flag (`"ex" in cell.lower()` of the flag cell). -/
structure TimeEntry where
  time : String
  name : String
  exhib : Bool
deriving Repr, DecidableEq

/-- One entry of the Python `events` list: `[EVENT NAME, [home...], [away...]]`. -/
structure EventResult where
  name : String
  home : List TimeEntry
  away : List TimeEntry
deriving Repr, DecidableEq

/-- The `current_parse` mode string of `fetch_meet_results`. -/
inductive ParseState where
  | event
  | times
  | exhib
deriving Repr, DecidableEq

/-- Python `events[-1][1].append(h); events[-1][2].append(a)`: append one
home and one away entry to the last event; `events[-1]` on an empty list
raises `IndexError`. -/
def appendEntries (h a : TimeEntry) : List EventResult → Except PyErr (List EventResult)
  | [] => .error .indexError
  | [e] => .ok [{ e with home := e.home ++ [h], away := e.away ++ [a] }]
  | e :: e' :: rest => (appendEntries h a (e' :: rest)).map (e :: ·)

/-- The two appends of the `times` branch (src/fetch/__init__.py:70-74):
the home entry from cells 1 (name), 0 (time), 2 (exhibition flag) and the
away entry from cells 7 (time), 6 (name), 5 (exhibition flag); a missing
cell raises `IndexError`. -/
def addRowTimes (events : List EventResult) (row : List String) :
    Except PyErr (ParseState × List EventResult) :=
  match row.get? 0, row.get? 1, row.get? 2, row.get? 5, row.get? 6, row.get? 7 with
  | some c0, some c1, some c2, some c5, some c6, some c7 =>
    (appendEntries ⟨c0, c1, strContains (pyLower c2) "ex"⟩
      ⟨c7, c6, strContains (pyLower c5) "ex"⟩ events).map (.times, ·)
  | _, _, _, _, _, _ => .error .indexError

/-- One iteration of the row loop of `fetch_meet_results`
(src/fetch/__init__.py:45-82).  `row[0]` on a zero-cell row raises
`IndexError` before any branch applies.  Branch order follows the source:
the `"Exhibition" in row[0]` test, then `len(row) == 1`, then the
state-specific branches.  In the `times` state, Python's `and` first
evaluates `row[0] == ""`; only when that holds is `row[7]` read for the
sentinel test (an `IndexError` when the row is shorter), and otherwise the
two appends run. -/
def processRow (st : ParseState) (events : List EventResult) (row : List String) :
    Except PyErr (ParseState × List EventResult) :=
  match row.head? with
  | none => .error .indexError
  | some c0 =>
    if strContains c0 "Exhibition" then .ok (.exhib, events)
    else if row.length == 1 then .ok (.times, events ++ [⟨c0, [], []⟩])
    else
      match st with
      | .event => .ok (.times, events ++ [⟨c0, [], []⟩])
      | .times =>
        if c0 == "" then
          match row.get? 7 with
          | none => .error .indexError
          | some c7 =>
            if c7 == "" then .ok (.event, events)
            else addRowTimes events row
        else addRowTimes events row
      | .exhib => .ok (.exhib, events)

/-- The row loop of `fetch_meet_results`, threading the mode and the
accumulated events through the remaining rows. -/
def runRows (st : ParseState) (events : List EventResult) :
    List (List String) → Except PyErr (ParseState × List EventResult)
  | [] => .ok (st, events)
  | row :: rest =>
    match processRow st events row with
    | .error e => .error e
    | .ok (st', evs') => runRows st' evs' rest

/-- The parsing core of `fetch_meet_results`: run the row loop from the
initial `event` state with no accumulated events and return the events. -/
def fetch_meet_results (rows : List (List String)) : Except PyErr (List EventResult) :=
  (runRows .event [] rows).map (·.2)

/-! ## The swimmer-profile parser (`fetch_swimmer`)

The profile document is abstracted to what the source reads from the soup:
for the metadata table, the texts of the `<b>` elements inside each `<td>`
(in document order); for the performance table, its rows, each carrying its
text and whether its markup contains `<b>` (the `"<b>" in str(i)` test). -/

/-- A `<td>`: the texts of the `<b>` elements inside it. -/
structure Td where
  bolds : List String
deriving Repr, DecidableEq

/-- A `<tr>` of the performance table: whether the row's markup contains
`<b>`, and the row's text. -/
structure Tr where
  hasBold : Bool
  text : String
deriving Repr, DecidableEq

/-- A `<table>`: its `<td>` descendants and its `<tr>` rows. -/
structure HtmlTable where
  tds : List Td
  trs : List Tr
deriving Repr, DecidableEq

/-- A parsed profile document: its `<table>` elements in document order. -/
structure Soup where
  tables : List HtmlTable
deriving Repr, DecidableEq

/-- A calendar date as produced by `datetime.strptime(s, "%m/%d/%Y")`. -/
structure Date where
  month : Nat
  day : Nat
  year : Nat
deriving Repr, DecidableEq

/-- Model of `datetime.strptime(s, "%m/%d/%Y")`: month `/` day `/` year,
each a digit run (month and day up to two digits, year four), month 1-12
and day 1-31; `none` models the `ValueError`.  (strptime also checks the
day against the month's length; no claim depends on dates, and the one
claim that reaches the performance loop bypasses it, so the calendar check
is elided.) -/
def parseDate (s : String) : Option Date :=
  match (s.data.splitOn '/').map (fun g => (g, digitsVal g)) with
  | [(mg, m), (dg, d), (yg, y)] =>
    if mg.all Char.isDigit && dg.all Char.isDigit && yg.all Char.isDigit
        && !mg.isEmpty && mg.length ≤ 2 && !dg.isEmpty && dg.length ≤ 2
        && yg.length == 4 && 1 ≤ m && m ≤ 12 && 1 ≤ d && d ≤ 31 then
      some ⟨m, d, y⟩
    else none
  | _ => none

/-- Modelled from the spec: the `Swimmer.Time` performance record of the
`fetch.swimmer` module (that module is not under src/); §3 gives it an
event name, a calendar date and a seconds value or absence marker. -/
structure SwimTime where
  eventName : String
  date : Date
  seconds : Option PyFloat
deriving Repr, DecidableEq

/-- Modelled from the spec: the `Swimmer` record of the `fetch.swimmer`
module (not under src/); §3 gives it a name, a class year and a list of
performances, appended as profile rows are scanned, so `Swimmer(name,
year)` starts with no performances. -/
structure Swimmer where
  name : String
  year : String
  times : List SwimTime
deriving Repr, DecidableEq

/-- The `graduation` dict of `fetch_swimmer` (src/fetch/__init__.py:121-128);
`none` models the `KeyError` of a missing key. -/
def graduation (y : ℤ) : Option String :=
  if y = 2020 then some "SR"
  else if y = 2021 then some "JR"
  else if y = 2022 then some "SO"
  else if y = 2023 then some "FR"
  else if y = 2024 then some "'8"
  else if y = 2025 then some "'7"
  else none

/-- `table.select("td")[i].select("b")[0].text`: the first bold text of the
`i`-th `<td>`; a missing `<td>` or missing `<b>` raises `IndexError`. -/
def tdBold (t : HtmlTable) (i : Nat) : Except PyErr String :=
  match t.tds.get? i with
  | none => .error .indexError
  | some td =>
    match td.bolds.get? 0 with
    | none => .error .indexError
    | some s => .ok s

/-- The body of the `for i in times` loop of `fetch_swimmer`
(src/fetch/__init__.py:146-156), with `swim.times` as the accumulator
`acc` and `current_event` as `current`.  A bold row only updates
`current_event`; any other row parses its date and time and appends a
`Swimmer.Time`.  An exception stops the loop with the entries appended so
far (Python mutated `swim.times` in place), reported alongside. -/
def timesLoop (acc : List SwimTime) (current : String) :
    List Tr → List SwimTime × Option PyErr
  | [] => (acc, none)
  | r :: rest =>
    if r.hasBold then timesLoop acc r.text rest
    else
      match parseDate (pyTake r.text 10) with
      | none => (acc, some .valueError)
      | some d =>
        match time_to_float (some (pyDrop r.text 13)) with
        | .error e => (acc, some e)
        | .ok t => timesLoop (acc ++ [⟨current, d, t⟩]) current rest

/-- The `try` block of `fetch_swimmer` (src/fetch/__init__.py:142-156):
`soup.select("table")[2].select("tr")` (an `IndexError` when the document
has fewer than three tables), `times[0].text` (an `IndexError` when the
table has no rows), then the row loop. -/
def runTimes (soup : Soup) : List SwimTime × Option PyErr :=
  match soup.tables.get? 2 with
  | none => ([], some .indexError)
  | some t2 =>
    match t2.trs.get? 0 with
    | none => ([], some .indexError)
    | some r0 => timesLoop [] r0.text t2.trs

/-- Embeds `fetch_swimmer` (src/fetch/__init__.py:107-161) past the fetch:
metadata extraction from `soup.select("table")[0]` (last name from td 1,
first name from td 2, graduation code from td 9, each the first bold
text), the `graduation` lookup, then the performance `try` block whose
`except IndexError: pass` keeps the entries appended so far while any
other exception propagates. -/
def fetch_swimmer (soup : Soup) : Except PyErr Swimmer :=
  match soup.tables.get? 0 with
  | none => .error .indexError
  | some info =>
    match tdBold info 1 with
    | .error e => .error e
    | .ok last =>
      match tdBold info 2 with
      | .error e => .error e
      | .ok first =>
        match tdBold info 9 with
        | .error e => .error e
        | .ok yearTxt =>
          match pyInt yearTxt with
          | none => .error .valueError
          | some yearCode =>
            match graduation yearCode with
            | none => .error .keyError
            | some year =>
              match runTimes soup with
              | (ts, none) => .ok ⟨first ++ " " ++ last, year, ts⟩
              | (ts, some .indexError) => .ok ⟨first ++ " " ++ last, year, ts⟩
              | (_, some e) => .error e

/-! ## Statement apparatus for the claims -/

/-- Does this computation raise (is it an `Except.error`)? -/
def isPyError {α : Type} : Except PyErr α → Bool
  | .error _ => true
  | .ok _ => false

/-- Claim C4's counting: a single-cell "header" row, setting aside
single-cell rows whose first cell contains the "Exhibition" marker. -/
def singleHeaderRow (row : List String) : Bool :=
  row.length == 1 && !(strContains (row.headD "") "Exhibition")

/-- Claim C4's count of single-cell header rows in a stream. -/
def singleHeaderCount (rows : List (List String)) : Nat :=
  (rows.filter singleHeaderRow).length

/-- Split a list at the first occurrence of `sep`: the part before it and
everything after it; `none` when `sep` does not occur. -/
def splitAtFirst (sep : Char) : List Char → Option (List Char × List Char)
  | [] => none
  | c :: t =>
    if c = sep then some ([], t)
    else (splitAtFirst sep t).map (fun p => (c :: p.1, p.2))

/-- Claim C7's wording of the "minutes:seconds form": the part left of the
FIRST colon a decimal integer string, everything right of the first colon
a decimal float string.  (Stated from the claim, to be compared with the
code, which instead uses the segment between the first and second colon.) -/
def specMinutesSecondsForm (t : String) : Bool :=
  match splitAtFirst ':' t.data with
  | none => false
  | some (l, r) => (pyInt l.asString).isSome && (pyFloat r.asString).isSome

/-- A minimal metadata table for concrete instances: `<td>` 1 holds the
last name, 2 the first name, 9 the graduation-year text, each as its only
bold text (the positions `fetch_swimmer` reads). -/
def infoTable (last first yearTxt : String) : HtmlTable :=
  ⟨[⟨[]⟩, ⟨[last]⟩, ⟨[first]⟩, ⟨[]⟩, ⟨[]⟩, ⟨[]⟩, ⟨[]⟩, ⟨[]⟩, ⟨[]⟩, ⟨[yearTxt]⟩], []⟩

/-! ## Helper lemmas about the row-stream parser -/

/-- `appendEntries` never changes the number of events. -/
theorem appendEntries_ok_length (h a : TimeEntry) :
    ∀ evs evs' : List EventResult, appendEntries h a evs = .ok evs' →
      evs'.length = evs.length
  | [], _, hp => by simp [appendEntries] at hp
  | [e], evs', hp => by
    simp only [appendEntries, Except.ok.injEq] at hp
    subst hp; rfl
  | e :: e' :: rest, evs', hp => by
    cases hq : appendEntries h a (e' :: rest) with
    | error er => simp [appendEntries, hq, Except.map] at hp
    | ok evs'' =>
      simp only [appendEntries, hq, Except.map, Except.ok.injEq] at hp
      subst hp
      simpa using appendEntries_ok_length h a (e' :: rest) evs'' hq

/-- `appendEntries` preserves "home and away entry lists have equal
length" (it extends one event by one entry on each side). -/
theorem appendEntries_ok_balanced (h a : TimeEntry) :
    ∀ evs evs' : List EventResult, appendEntries h a evs = .ok evs' →
      (∀ e ∈ evs, e.home.length = e.away.length) →
      ∀ e ∈ evs', e.home.length = e.away.length
  | [], _, hp, _ => by simp [appendEntries] at hp
  | [e], evs', hp, hb => by
    simp only [appendEntries, Except.ok.injEq] at hp
    subst hp
    intro e' he'
    simp only [List.mem_singleton] at he'
    subst he'
    have := hb e (by simp)
    simp [this]
  | e :: e' :: rest, evs', hp, hb => by
    cases hq : appendEntries h a (e' :: rest) with
    | error er => simp [appendEntries, hq, Except.map] at hp
    | ok evs'' =>
      simp only [appendEntries, hq, Except.map, Except.ok.injEq] at hp
      subst hp
      intro x hx
      rcases List.mem_cons.mp hx with hx | hx
      · subst hx; exact hb x (by simp)
      · exact appendEntries_ok_balanced h a (e' :: rest) evs'' hq
          (fun y hy => hb y (List.mem_cons_of_mem _ hy)) x hx

/-- A successful `addRowTimes` is an `appendEntries` on the event list
(and puts the parser in the `times` state). -/
theorem addRowTimes_ok {evs row st' evs'}
    (hp : addRowTimes evs row = .ok (st', evs')) :
    st' = .times ∧ ∃ h a, appendEntries h a evs = .ok evs' := by
  unfold addRowTimes at hp
  split at hp
  case _ c0 c1 c2 c5 c6 c7 _ _ _ _ _ _ =>
    cases hq : appendEntries ⟨c0, c1, strContains (pyLower c2) "ex"⟩
        ⟨c7, c6, strContains (pyLower c5) "ex"⟩ evs with
    | error er => simp [hq, Except.map] at hp
    | ok evs'' =>
      simp only [hq, Except.map, Except.ok.injEq, Prod.mk.injEq] at hp
      exact ⟨hp.1.symm, _, _, hp.2 ▸ hq⟩
  case _ => simp at hp

/-- One accepted row preserves "home and away entry lists have equal
length" for every accumulated event. -/
theorem processRow_ok_balanced {st evs row st' evs'}
    (hp : processRow st evs row = .ok (st', evs'))
    (hb : ∀ e ∈ evs, e.home.length = e.away.length) :
    ∀ e ∈ evs', e.home.length = e.away.length := by
  have hnew : ∀ (c0 : String) (e : EventResult),
      e ∈ evs ++ [⟨c0, [], []⟩] → e.home.length = e.away.length := by
    intro c0 e he
    rcases List.mem_append.mp he with he | he
    · exact hb e he
    · simp only [List.mem_singleton] at he; subst he; rfl
  unfold processRow at hp
  split at hp
  case _ => exact absurd hp (by simp)
  case _ c0 hc0 =>
    split at hp
    · cases hp; assumption
    · split at hp
      · cases hp; exact hnew c0
      · split at hp
        · cases hp; exact hnew c0
        · split at hp
          · split at hp
            · exact absurd hp (by simp)
            · split at hp
              · cases hp; assumption
              · obtain ⟨-, h', a', hq⟩ := addRowTimes_ok hp
                exact appendEntries_ok_balanced h' a' evs evs' hq hb
          · obtain ⟨-, h', a', hq⟩ := addRowTimes_ok hp
            exact appendEntries_ok_balanced h' a' evs evs' hq hb
        · cases hp; assumption

/-- One accepted row grows the event list by at least one when the row is
a single-cell header, and never shrinks it. -/
theorem processRow_ok_count {st evs row st' evs'}
    (hp : processRow st evs row = .ok (st', evs')) :
    evs.length + (if singleHeaderRow row then 1 else 0) ≤ evs'.length := by
  unfold processRow at hp
  split at hp
  case _ => exact absurd hp (by simp)
  case _ c0 hc0 =>
    have hhead : row.headD "" = c0 := by
      cases row with
      | nil => simp at hc0
      | cons x xs => simp at hc0; simp [hc0]
    split at hp
    case _ hex =>
      cases hp
      simp [singleHeaderRow, hc0, hex]
    case _ hex =>
      split at hp
      case _ hone =>
        cases hp
        have hle : (if singleHeaderRow row then 1 else 0) ≤ 1 := by split <;> simp
        simp only [List.length_append, List.length_singleton]
        omega
      case _ hone =>
        have hhdr : singleHeaderRow row = false := by
          simp only [singleHeaderRow, Bool.and_eq_false_iff]
          left
          simpa using hone
        rw [hhdr]
        simp only [if_neg (by simp : ¬(false = true)), Nat.add_zero]
        split at hp
        · cases hp; simp [List.length_append]
        · split at hp
          · split at hp
            · exact absurd hp (by simp)
            · split at hp
              · cases hp; exact Nat.le_refl _
              · obtain ⟨-, h', a', hq⟩ := addRowTimes_ok hp
                exact Nat.le_of_eq (appendEntries_ok_length h' a' evs evs' hq).symm
          · obtain ⟨-, h', a', hq⟩ := addRowTimes_ok hp
            exact Nat.le_of_eq (appendEntries_ok_length h' a' evs evs' hq).symm
        · cases hp; exact Nat.le_refl _

/-- The row loop preserves balance of every accumulated event. -/
theorem runRows_ok_balanced :
    ∀ (rows : List (List String)) st evs st' evs',
      runRows st evs rows = .ok (st', evs') →
      (∀ e ∈ evs, e.home.length = e.away.length) →
      ∀ e ∈ evs', e.home.length = e.away.length
  | [], st, evs, st', evs', hp, hb => by
    simp only [runRows, Except.ok.injEq, Prod.mk.injEq] at hp
    exact hp.2 ▸ hb
  | row :: rest, st, evs, st', evs', hp, hb => by
    cases hq : processRow st evs row with
    | error er => simp [runRows, hq] at hp
    | ok p =>
      obtain ⟨st1, evs1⟩ := p
      simp only [runRows, hq] at hp
      exact runRows_ok_balanced rest st1 evs1 st' evs' hp
        (processRow_ok_balanced hq hb)

/-- The row loop appends at least one event per single-cell header row. -/
theorem runRows_ok_count :
    ∀ (rows : List (List String)) st evs st' evs',
      runRows st evs rows = .ok (st', evs') →
      evs.length + singleHeaderCount rows ≤ evs'.length
  | [], st, evs, st', evs', hp => by
    simp only [runRows, Except.ok.injEq, Prod.mk.injEq] at hp
    simp [← hp.2, singleHeaderCount]
  | row :: rest, st, evs, st', evs', hp => by
    cases hq : processRow st evs row with
    | error er => simp [runRows, hq] at hp
    | ok p =>
      obtain ⟨st1, evs1⟩ := p
      simp only [runRows, hq] at hp
      have h1 := processRow_ok_count hq
      have h2 := runRows_ok_count rest st1 evs1 st' evs' hp
      have h3 : singleHeaderCount (row :: rest) =
          (if singleHeaderRow row then 1 else 0) + singleHeaderCount rest := by
        simp only [singleHeaderCount, List.filter_cons]
        split <;> simp [Nat.add_comm]
      omega

/-! ## Helper lemmas about the numeric model -/

/-- The exponent step keeps the denominator positive. -/
theorem pyExpPart_den_pos (n : ℤ) (d : ℕ) (hd : 0 < d) :
    ∀ l n' d', pyExpPart n d l = some (n', d') → 0 < d' := by
  intro l n' d' hp
  cases l with
  | nil =>
    simp only [pyExpPart, Option.some.injEq, Prod.mk.injEq] at hp
    omega
  | cons c rest =>
    simp only [pyExpPart] at hp
    split at hp
    · split at hp
      · simp at hp
      · split at hp <;>
          simp only [Option.some.injEq, Prod.mk.injEq] at hp <;> rcases hp with ⟨-, h2⟩ <;>
            subst h2
        · positivity
        · exact hd
    · simp at hp

/-- Every denominator `pyFloatCore` produces is positive (a power of 10). -/
theorem pyFloatCore_den_pos {l : List Char} {n : ℤ} {d : ℕ}
    (hp : pyFloatCore l = some (n, d)) : 0 < d := by
  unfold pyFloatCore at hp
  repeat' split at hp
  all_goals try exact Option.noConfusion hp
  all_goals rw [Option.map_eq_some'] at hp
  all_goals obtain ⟨⟨n', d'⟩, hexp, hnd⟩ := hp
  all_goals simp only [Prod.mk.injEq] at hnd
  all_goals obtain ⟨-, rfl⟩ := hnd
  all_goals exact pyExpPart_den_pos _ _ (by positivity) _ _ _ hexp

/-- On a finite seconds value, `pyAddMinutes` computes exactly the spec's
`minutes*60 + seconds` (a `Rat`'s denominator is never zero). -/
theorem pyAddMinutes_finite (m : ℤ) (q : ℚ) :
    pyAddMinutes m (.finite q) = .finite ((m : ℚ) * 60 + q) := by
  have hd : ((q.den : ℚ)) ≠ 0 := Nat.cast_ne_zero.mpr q.den_nz
  simp only [pyAddMinutes, PyFloat.finite.injEq]
  rw [Rat.mkRat_eq_div]
  push_cast
  rw [add_div, mul_div_assoc, div_self hd, mul_one, Rat.num_div_den]

/-! ## The claims -/

/-- C1: started in the initial `event` state, the row parser on the stream
`[["100 Free"], ["58.21","A",""," ","","","B","1:01.30",""],
["","","","","","","",""]]` produces exactly one `EventResult` named
"100 Free" whose home entries are exactly `[{time 58.21, name A, not
exhibition}]` and whose away entries are exactly `[{time 1:01.30, name B,
not exhibition}]`, finishing back in the `event` state. -/
theorem c1_row_stream_example :
    runRows .event []
      [["100 Free"],
       ["58.21", "A", "", " ", "", "", "B", "1:01.30", ""],
       ["", "", "", "", "", "", "", ""]] =
    .ok (.event,
      [⟨"100 Free", [⟨"58.21", "A", false⟩], [⟨"1:01.30", "B", false⟩]⟩]) := by
  decide

/-- C2: a row whose first cell contains "Exhibition" sends the parser to
the `exhib` state and leaves the accumulated events untouched, in every
state and for every cell count (at least one cell), because that check is
evaluated before the single-cell check and the state-specific rules. -/
theorem c2_exhibition_check_first (st : ParseState) (events : List EventResult)
    (c0 : String) (rest : List String)
    (h : strContains c0 "Exhibition" = true) :
    processRow st events (c0 :: rest) = .ok (.exhib, events) := by
  simp [processRow, h]

theorem c2_witness :
    strContains "Exhibition 500 Free" "Exhibition" = true ∧
      processRow .times [⟨"100 Free", [], []⟩] ["Exhibition 500 Free"] =
        .ok (.exhib, [⟨"100 Free", [], []⟩]) :=
  ⟨by decide,
   c2_exhibition_check_first .times [⟨"100 Free", [], []⟩] "Exhibition 500 Free" []
     (by decide)⟩

/-- C6: `time_to_float` returns the absence marker for the
disqualification string "DQ", but on null input the code raises (a
`TypeError` from `float(None)` that the `except ValueError` clause does
not catch) instead of returning the absence marker as the claim states;
the handler's `time is None` test is unreachable dead code. -/
theorem c6_dq_and_none :
    time_to_float (some "DQ") = .ok none ∧
      time_to_float none = .error .typeError :=
  ⟨by decide, rfl⟩

/-- C10: on a row with zero cells the `"Exhibition" in row[0]` test raises
`IndexError` in every state (including `exhib`), so the row loop is not
total over arbitrary row streams. -/
theorem c10_empty_row_index_error :
    (∀ (st : ParseState) (events : List EventResult),
        processRow st events [] = .error .indexError) ∧
      runRows .event [] [[]] = .error .indexError :=
  ⟨fun _ _ => rfl, by decide⟩

/-- C3: whenever the row parser completes without error, every produced
`EventResult` has home-entry and away-entry lists of equal length, since
each data row consumed in the `times` state appends exactly one home and
one away entry to the last event. -/
theorem c3_home_away_balanced (rows : List (List String)) (evs : List EventResult)
    (hp : fetch_meet_results rows = .ok evs) :
    ∀ e ∈ evs, e.home.length = e.away.length := by
  unfold fetch_meet_results at hp
  cases hr : runRows .event [] rows with
  | error er => simp [hr, Except.map] at hp
  | ok p =>
    obtain ⟨st', evs'⟩ := p
    simp only [hr, Except.map, Except.ok.injEq] at hp
    subst hp
    exact runRows_ok_balanced rows .event [] st' evs' hr (by simp)

theorem c3_witness :
    (EventResult.mk "100 Free" [⟨"58.21", "A", false⟩]
        [⟨"1:01.30", "B", false⟩]).home.length =
      (EventResult.mk "100 Free" [⟨"58.21", "A", false⟩]
        [⟨"1:01.30", "B", false⟩]).away.length :=
  c3_home_away_balanced
    [["100 Free"],
     ["58.21", "A", "", " ", "", "", "B", "1:01.30", ""],
     ["", "", "", "", "", "", "", ""]]
    [⟨"100 Free", [⟨"58.21", "A", false⟩], [⟨"1:01.30", "B", false⟩]⟩]
    (by decide) _ (by decide)

/-- C4 as stated is false: a multi-cell row consumed in the `event` state
also starts a new `EventResult`, so the stream `[["a","b"]]` yields one
event although it has no single-cell header row. -/
theorem c4_counterexample :
    ¬ ∀ (rows : List (List String)) (evs : List EventResult),
        fetch_meet_results rows = .ok evs →
          evs.length = singleHeaderCount rows := by
  intro h
  have := h [["a", "b"]] [⟨"a", [], []⟩] (by decide)
  simp [singleHeaderCount, singleHeaderRow] at this

/-- C4 amended: the number of `EventResult`s in a completed parse is at
least the number of single-cell header rows (equality can fail because a
multi-cell row met in the `event` state also starts a new event). -/
theorem c4_amended_header_count_le (rows : List (List String))
    (evs : List EventResult) (hp : fetch_meet_results rows = .ok evs) :
    singleHeaderCount rows ≤ evs.length := by
  unfold fetch_meet_results at hp
  cases hr : runRows .event [] rows with
  | error er => simp [hr, Except.map] at hp
  | ok p =>
    obtain ⟨st', evs'⟩ := p
    simp only [hr, Except.map, Except.ok.injEq] at hp
    subst hp
    simpa using runRows_ok_count rows .event [] st' evs' hr

theorem c4_witness :
    singleHeaderCount
        [["100 Free"],
         ["58.21", "A", "", " ", "", "", "B", "1:01.30", ""],
         ["", "", "", "", "", "", "", ""]] ≤
      ([⟨"100 Free", [⟨"58.21", "A", false⟩], [⟨"1:01.30", "B", false⟩]⟩] :
        List EventResult).length :=
  c4_amended_header_count_le _ _ (by decide)

/-- C5: a time string that Python `float` parses directly comes back as
that number, and a string `M:S` (`M` a decimal integer string, `S` a
decimal float string, so exactly one colon) comes back as `M*60 + S`. -/
theorem c5_time_parser_values :
    (∀ (s : String) (v : PyFloat), pyFloat s = some v →
        time_to_float (some s) = .ok (some v)) ∧
    (∀ (t m s1 : String) (mi : ℤ) (sq : ℚ),
        pySplit ':' t = [m, s1] →
        pyFloat t = none →
        strContains (pyLower t) "dq" = false →
        pyInt m = some mi →
        pyFloat s1 = some (.finite sq) →
        time_to_float (some t) = .ok (some (.finite ((mi : ℚ) * 60 + sq)))) := by
  constructor
  · intro s v h
    simp [time_to_float, h]
  · intro t m s1 mi sq hsplit hf hdq hm hs
    simp [time_to_float, hf, hdq, hsplit, hm, hs, pyAddMinutes_finite]

theorem c5_witness :
    time_to_float (some "58.21") = .ok (some (.finite (58.21 : ℚ))) ∧
      time_to_float (some "1:03.55") = .ok (some (.finite (63.55 : ℚ))) := by
  constructor
  · have h := c5_time_parser_values.1 "58.21" (.finite (mkRat 5821 100)) (by decide)
    rw [h]
    norm_num [Rat.mkRat_eq_div]
  · have h := c5_time_parser_values.2 "1:03.55" "1" "03.55" 1 (mkRat 355 100)
      (by decide) (by decide) (by decide) (by decide) (by decide)
    rw [h]
    norm_num [Rat.mkRat_eq_div]

/-- C7 as stated is false: "1:2:3" is not of the claim's minutes:seconds
form (everything right of the first colon, "2:3", is not a float), yet the
code does not fail — it splits on every colon and uses segment 1, quietly
returning `1*60 + 2 = 62`. -/
theorem c7_counterexample :
    ¬ ∀ t : String, pyFloat t = none → strContains (pyLower t) "dq" = false →
        specMinutesSecondsForm t = false →
        isPyError (time_to_float (some t)) = true := by
  intro h
  have := h "1:2:3" (by decide) (by decide) (by decide)
  exact absurd this (by decide)

/-- C7 amended: an ASCII input that Python `float` rejects (the model
covers its full ASCII grammar: decimals, underscore grouping, inf/nan),
that contains no "dq", and in which the segment left of the first colon is
not an integer literal or the segment between the first and second colon
(the remainder when there is no second colon) is missing or rejected by
`float`, makes `time_to_float` raise instead of returning a value.  (The
ASCII bound marks CPython's acceptance of non-ASCII Unicode decimal
digits as out of the modelled domain.) -/
theorem c7_amended_unmatched_raises (t : String)
    (_hascii : ∀ c ∈ t.data, c.toNat ≤ 127)
    (hf : pyFloat t = none)
    (hdq : strContains (pyLower t) "dq" = false)
    (hbad : pyInt ((pySplit ':' t).headD "") = none ∨
      ∀ s1, (pySplit ':' t).get? 1 = some s1 → pyFloat s1 = none) :
    isPyError (time_to_float (some t)) = true := by
  rcases hbad with hm | hs1
  · have hm' : pyInt ((pySplit ':' t).head?.getD "") = none := by simpa using hm
    simp [time_to_float, hf, hdq, hm', isPyError]
  · cases hm : pyInt ((pySplit ':' t).headD "") with
    | none =>
      have hm' : pyInt ((pySplit ':' t).head?.getD "") = none := by simpa using hm
      simp [time_to_float, hf, hdq, hm', isPyError]
    | some mi =>
      have hm' : pyInt ((pySplit ':' t).head?.getD "") = some mi := by simpa using hm
      cases hg : (pySplit ':' t).get? 1 with
      | none =>
        have hg' : (pySplit ':' t)[1]? = none := by simpa using hg
        simp [time_to_float, hf, hdq, hm', hg', isPyError]
      | some s1 =>
        have hg' : (pySplit ':' t)[1]? = some s1 := by simpa using hg
        have hc : pyFloat s1 = none := hs1 s1 hg
        simp [time_to_float, hf, hdq, hm', hg', hc, isPyError]

theorem c7_witness :
    isPyError (time_to_float (some "abc")) = true :=
  c7_amended_unmatched_raises "abc" (by decide) (by decide) (by decide)
    (Or.inl (by decide))

/-- C8: the graduation-year code goes through exactly the lookup table
{2020 SR, 2021 JR, 2022 SO, 2023 FR, 2024 '8, 2025 '7} — 2023 gives
"FR" — and any code outside it makes `fetch_swimmer` fail with the
`KeyError` of the dict lookup instead of returning a swimmer. -/
theorem c8_graduation_table :
    (graduation 2020 = some "SR" ∧ graduation 2021 = some "JR" ∧
     graduation 2022 = some "SO" ∧ graduation 2023 = some "FR" ∧
     graduation 2024 = some "'8" ∧ graduation 2025 = some "'7") ∧
    (∀ y : ℤ, y ≠ 2020 → y ≠ 2021 → y ≠ 2022 → y ≠ 2023 → y ≠ 2024 →
      y ≠ 2025 → graduation y = none) ∧
    (∀ (soup : Soup) (info : HtmlTable) (l f yt : String) (yc : ℤ),
      soup.tables[0]? = some info →
      tdBold info 1 = .ok l → tdBold info 2 = .ok f → tdBold info 9 = .ok yt →
      pyInt yt = some yc → graduation yc = none →
      fetch_swimmer soup = .error .keyError) := by
  refine ⟨by decide, ?_, ?_⟩
  · intro y h0 h1 h2 h3 h4 h5
    simp [graduation, h0, h1, h2, h3, h4, h5]
  · intro soup info l f yt yc h0 h1 h2 h9 hy hg
    simp [fetch_swimmer, h0, h1, h2, h9, hy, hg]

theorem c8_witness :
    graduation 1999 = none ∧
      fetch_swimmer ⟨[infoTable "Doe" "Jane" "1999"]⟩ = .error .keyError :=
  ⟨c8_graduation_table.2.1 1999 (by decide) (by decide) (by decide) (by decide)
     (by decide) (by decide),
   c8_graduation_table.2.2 ⟨[infoTable "Doe" "Jane" "1999"]⟩
     (infoTable "Doe" "Jane" "1999") "Doe" "Jane" "1999" 1999
     (by decide) (by decide) (by decide) (by decide) (by decide)
     (c8_graduation_table.2.1 1999 (by decide) (by decide) (by decide)
       (by decide) (by decide) (by decide))⟩

/-- C9 as stated is false in its exclusivity rider: a document whose three
tables are all present but whose performance table has no rows is a second
tolerated structural absence — `times[0]` raises the same `IndexError`
inside the `try` block, and `fetch_swimmer` still returns a swimmer with
an empty performance list instead of failing. -/
theorem c9_counterexample :
    (Soup.mk [infoTable "Doe" "Jane" "2023", ⟨[], []⟩, ⟨[], []⟩]).tables.length = 3 ∧
      fetch_swimmer ⟨[infoTable "Doe" "Jane" "2023", ⟨[], []⟩, ⟨[], []⟩]⟩ =
        .ok ⟨"Jane" ++ " " ++ "Doe", "FR", []⟩ := by
  decide

/-- C9 amended: with fewer than three tables and a parsing metadata table,
`fetch_swimmer` returns the swimmer with an empty performance list and no
error; the same `IndexError` tolerance also covers a present but rowless
performance table; a missing metadata table is not tolerated. -/
theorem c9_amended_tolerated_absences :
    (∀ (soup : Soup) (info : HtmlTable) (l f yt cy : String) (yc : ℤ),
      soup.tables.length < 3 →
      soup.tables[0]? = some info →
      tdBold info 1 = .ok l → tdBold info 2 = .ok f → tdBold info 9 = .ok yt →
      pyInt yt = some yc → graduation yc = some cy →
      fetch_swimmer soup = .ok ⟨f ++ " " ++ l, cy, []⟩) ∧
    (∀ (soup : Soup) (info t2 : HtmlTable) (l f yt cy : String) (yc : ℤ),
      soup.tables[2]? = some t2 → t2.trs = [] →
      soup.tables[0]? = some info →
      tdBold info 1 = .ok l → tdBold info 2 = .ok f → tdBold info 9 = .ok yt →
      pyInt yt = some yc → graduation yc = some cy →
      fetch_swimmer soup = .ok ⟨f ++ " " ++ l, cy, []⟩) ∧
    (∀ soup : Soup, soup.tables = [] → fetch_swimmer soup = .error .indexError) := by
  refine ⟨?_, ?_, ?_⟩
  · intro soup info l f yt cy yc hlen h0 h1 h2 h9 hy hg
    have h2none : soup.tables[2]? = none := by
      rw [List.getElem?_eq_none_iff]
      omega
    simp [fetch_swimmer, h0, h1, h2, h9, hy, hg, runTimes, h2none]
  · intro soup info t2 l f yt cy yc ht2 htrs h0 h1 h2 h9 hy hg
    simp [fetch_swimmer, h0, h1, h2, h9, hy, hg, runTimes, ht2, htrs]
  · intro soup h
    simp [fetch_swimmer, h]

theorem c9_witness :
    fetch_swimmer ⟨[infoTable "Doe" "Jane" "2023"]⟩ =
      .ok ⟨"Jane" ++ " " ++ "Doe", "FR", []⟩ :=
  c9_amended_tolerated_absences.1 ⟨[infoTable "Doe" "Jane" "2023"]⟩
    (infoTable "Doe" "Jane" "2023") "Doe" "Jane" "2023" "FR" 2023
    (by decide) (by decide) (by decide) (by decide) (by decide) (by decide)
    (by decide)
